import Mathlib

/-!
Shallow embedding of `src/library.py`, a single-user book-catalog manager.

The Python program keeps an in-memory list of `Book` objects inside a
`Library`, persists the full list to a JSON file after every mutation via
`Services.save_data`, and reads it back via `Services.load_data`.

Modelling conventions:
* A `Book` carries the five fields of the Python class, with the types its
  annotations and the data model give them (`id : int`, `title : str`,
  `author : str`, `year : int`, `status : str`).
* The backing file is modelled by `StoredFile`: the outcome of
  `os.path.exists` / `st_size` / `json.load` classifies a file as absent,
  empty, unparseable JSON, or a parsed JSON value (`Json` is a small JSON
  AST over `Int` numbers and `String` keys, which covers every value the
  program itself writes).  `json.dump` followed by `json.load` is the
  identity on that value domain, so `save_data` is modelled as storing the
  serialized AST directly.
* Python exceptions that the code can raise and does not catch
  (`TypeError` from `Book(**book)`, `AttributeError` from calling `.lower()`
  on an `int` or from `getattr` on an unknown attribute) are modelled with
  `Except PyError`.
* `str.lower` is modelled by ASCII case folding (`lowerStr`), and the
  Python substring test `a in b` by `subOf`.
* Console reporting is modelled by returning the reported value/outcome:
  each mutating operation returns the new state paired with its outcome.
-/

/-- Exceptions the embedded code can raise (uncaught in the Python source). -/
inductive PyError where
  | typeError
  | attributeError
deriving DecidableEq

/-- A small JSON AST: what `json.load` can produce on the files this
program reads and writes (integer numbers suffice for `id` and `year`). -/
inductive Json where
  | jnull
  | jbool (b : Bool)
  | jnum (n : Int)
  | jstr (s : String)
  | jarr (l : List Json)
  | jobj (kvs : List (String × Json))

/-- One catalog record: the `Book` class of `src/library.py`, with the field
types of its annotations (`id: int, title: str, author: str, year: int,
status: str`). -/
structure Book where
  id : Int
  title : String
  author : String
  year : Int
  status : String
deriving DecidableEq

/-- The default status string of `Book.__init__` (`'в наличии'`,
"available"). -/
def statusAvailable : String := "в наличии"

/-- The second legal status string of `change_status` (`'выдана'`,
"checked-out"). -/
def statusIssued : String := "выдана"

/-- `Book.to_dict`: the serialized form of one record, field for field in
the order the Python method emits. -/
def Book.to_dict (b : Book) : Json :=
  .jobj [("id", .jnum b.id), ("title", .jstr b.title),
         ("author", .jstr b.author), ("year", .jnum b.year),
         ("status", .jstr b.status)]

/-- The state of the backing file, as classified by the checks
`load_data` performs: `os.path.exists`, `os.stat(..).st_size == 0`, and
whether `json.load` succeeds (`malformed` = raises `JSONDecodeError`)
and with which value. -/
inductive StoredFile where
  | absent
  | emptyFile
  | malformed
  | parsed (v : Json)

/-- First value bound to a key, as a Python dict built from a JSON object
without duplicate keys. -/
def keyLookup (kvs : List (String × Json)) (k : String) : Option Json :=
  (kvs.find? (fun kv => kv.1 == k)).map (fun kv => kv.2)

/-- `Book(**book)` rejects unexpected keyword arguments: every key must be
one of the five field names. -/
def allowedKeys (kvs : List (String × Json)) : Bool :=
  kvs.all (fun kv => ["id", "title", "author", "year", "status"].contains kv.1)

/-- `Book(**book)` for one parsed JSON entry: requires a JSON object whose
keys are exactly the required `id, title, author, year` plus an optional
`status` (defaulting to `'в наличии'`), carrying values of the record's
field types; anything else raises `TypeError`. -/
def decodeBook (j : Json) : Except PyError Book :=
  match j with
  | .jobj kvs =>
    if allowedKeys kvs then
      match keyLookup kvs "id", keyLookup kvs "title",
            keyLookup kvs "author", keyLookup kvs "year" with
      | some (.jnum i), some (.jstr t), some (.jstr a), some (.jnum y) =>
        match keyLookup kvs "status" with
        | none => .ok { id := i, title := t, author := a, year := y,
                        status := statusAvailable }
        | some (.jstr s) => .ok { id := i, title := t, author := a, year := y,
                                  status := s }
        | some _ => .error .typeError
      | _, _, _, _ => .error .typeError
    else .error .typeError
  | _ => .error .typeError

/-- Decode a list of JSON entries into records, left to right, stopping at
the first failure (the first uncaught `TypeError`). -/
def decodeList : List Json → Except PyError (List Book)
  | [] => .ok []
  | j :: rest =>
    match decodeBook j with
    | .error e => .error e
    | .ok b =>
      match decodeList rest with
      | .error e => .error e
      | .ok bs => .ok (b :: bs)

/-- `[Book(**book) for book in data]`: iterating a JSON array decodes each
entry; iterating an empty dict or empty string yields no entries; iterating
any other JSON value raises `TypeError` (either "not iterable" or
"argument after ** must be a mapping"). -/
def decodeBooks (j : Json) : Except PyError (List Book) :=
  match j with
  | .jarr l => decodeList l
  | .jobj [] => .ok []
  | .jstr s => if s.data = [] then .ok [] else .error .typeError
  | _ => .error .typeError

/-- The diagnostic `load_data` prints alongside its return value. -/
inductive Diag where
  | noDiag
  | missingOrEmpty
  | corrupt
deriving DecidableEq

/-- What a call to `load_data` does: return a list of records (with its
diagnostic) or raise an uncaught exception. -/
inductive LoadResult where
  | returned (books : List Book) (d : Diag)
  | raised (e : PyError)

/-- `Services.load_data`: an absent or zero-length file yields `[]` with the
"missing or empty" diagnostic; a file `json.load` cannot parse yields `[]`
with the "corrupt" diagnostic (`JSONDecodeError` is the only exception
caught); a parsed value is decoded entry by entry, and a decoding failure
propagates as an uncaught exception. -/
def load_data (f : StoredFile) : LoadResult :=
  match f with
  | .absent => .returned [] .missingOrEmpty
  | .emptyFile => .returned [] .missingOrEmpty
  | .malformed => .returned [] .corrupt
  | .parsed v =>
    match decodeBooks v with
    | .ok bs => .returned bs .noDiag
    | .error e => .raised e

/-- `Services.save_data`: the full collection is serialized, in order, as a
JSON array of `to_dict` objects, overwriting the backing file (the written
text is non-empty and re-parses to the same AST). -/
def save_data (books : List Book) : StoredFile :=
  .parsed (.jarr (books.map Book.to_dict))

/-- The state of a running `Library`: its in-memory list `books` and the
backing file managed by its `Services`. -/
structure LibState where
  books : List Book
  stored : StoredFile

/-- `Library.__init__`: construct the library by loading the backing file
(propagating an uncaught decode exception). -/
def initLibrary (f : StoredFile) : Except PyError LibState :=
  match load_data f with
  | .returned bs _ => .ok { books := bs, stored := f }
  | .raised e => .error e

/-- `max(l, default=d)` of Python: the default on an empty list, the
maximum element otherwise. -/
def pyMax (l : List Int) (d : Int) : Int :=
  match l with
  | [] => d
  | a :: as => as.foldl max a

/-- `Library.generate_id`: `max([book.id for book in self.books], default=0) + 1`. -/
def generate_id (books : List Book) : Int :=
  pyMax (books.map Book.id) 0 + 1

/-- `Library.display_books` (the `list` operation): the full collection in
current order. -/
def display_books (st : LibState) : List Book :=
  st.books

/-- `Library.add_book`: build a `Book` with a fresh id and the default
status, append it, persist the full collection; the reported result is the
new record (its id is what the printed message surfaces). -/
def add_book (st : LibState) (title author : String) (year : Int) :
    LibState × Book :=
  let b : Book := { id := generate_id st.books, title := title,
                    author := author, year := year,
                    status := statusAvailable }
  let books := st.books ++ [b]
  ({ books := books, stored := save_data books }, b)

/-- Outcome reported by `delete_book`. -/
inductive DeleteOutcome where
  | removed
  | notFound
deriving DecidableEq

/-- `Library.delete_book`: if no record has the id, report not-found and do
nothing; otherwise keep exactly the records with a different id and
persist. -/
def delete_book (st : LibState) (book_id : Int) : LibState × DeleteOutcome :=
  if st.books.any (fun b => b.id == book_id) then
    let books := st.books.filter (fun b => b.id != book_id)
    ({ books := books, stored := save_data books }, .removed)
  else
    (st, .notFound)

/-- A Python value a `getattr` on a `Book` can produce: a string field or an
integer field. -/
inductive PyVal where
  | vstr (s : String)
  | vint (n : Int)
deriving DecidableEq

/-- `getattr(book, field)` on the embedded `Book`: the five attributes
exist; any other name raises `AttributeError`. -/
def getattrBook (b : Book) (field : String) : Except PyError PyVal :=
  if field = "id" then .ok (.vint b.id)
  else if field = "title" then .ok (.vstr b.title)
  else if field = "author" then .ok (.vstr b.author)
  else if field = "year" then .ok (.vint b.year)
  else if field = "status" then .ok (.vstr b.status)
  else .error .attributeError

/-- ASCII case folding, modelling `str.lower`. -/
def lowerStr (s : String) : String :=
  ⟨s.data.map Char.toLower⟩

/-- `.lower()` on a Python value: defined on strings, an `AttributeError`
on integers. -/
def pyLower (v : PyVal) : Except PyError String :=
  match v with
  | .vstr s => .ok (lowerStr s)
  | .vint _ => .error .attributeError

/-- Whether `needle` occurs as a contiguous leading block of `hay`. -/
def isPreOf : List Char → List Char → Bool
  | [], _ => true
  | _ :: _, [] => false
  | a :: as, b :: bs => a == b && isPreOf as bs

/-- Whether `needle` occurs contiguously anywhere in `hay`: the Python
membership test `needle in hay` on strings. -/
def subOf (needle : List Char) : List Char → Bool
  | [] => isPreOf needle []
  | b :: bs => isPreOf needle (b :: bs) || subOf needle bs

/-- The filter predicate of `search_books`:
`query.lower() in getattr(book, field).lower()`. -/
def matchesQuery (query field : String) (b : Book) : Except PyError Bool :=
  match getattrBook b field with
  | .error e => .error e
  | .ok v =>
    match pyLower v with
    | .error e => .error e
    | .ok hay => .ok (subOf (lowerStr query).data hay.data)

/-- A Python list comprehension with a fallible predicate: elements are
tested left to right and the first exception aborts the whole
comprehension. -/
def filterExc : List Book → (Book → Except PyError Bool) →
    Except PyError (List Book)
  | [], _ => .ok []
  | b :: bs, p =>
    match p b with
    | .error e => .error e
    | .ok true =>
      match filterExc bs p with
      | .error e => .error e
      | .ok rest => .ok (b :: rest)
    | .ok false => filterExc bs p

/-- `Library.search_books`: the records whose named field, lowercased,
contains the lowercased query; the reported result is the list of matches
(empty when none match), and any exception of the per-record test
propagates. -/
def search_books (st : LibState) (query field : String) :
    Except PyError (List Book) :=
  filterExc st.books (matchesQuery query field)

/-- Outcome reported by `change_status`. -/
inductive StatusOutcome where
  | updated
  | notFound
  | invalidStatus
deriving DecidableEq

/-- The loop body of `change_status`: set the status of the first record
with the given id, or report that none exists. -/
def setFirstStatus : List Book → Int → String → Option (List Book)
  | [], _, _ => none
  | b :: bs, i, s =>
    if b.id == i then some ({ b with status := s } :: bs)
    else (setFirstStatus bs i s).map (fun bs2 => b :: bs2)

/-- `Library.change_status`: a status outside the two legal strings is
rejected before anything else; otherwise the first record with the id gets
the new status and the collection is persisted, and if none exists the
outcome is not-found with no mutation. -/
def change_status (st : LibState) (book_id : Int) (new_status : String) :
    LibState × StatusOutcome :=
  if new_status = statusAvailable ∨ new_status = statusIssued then
    match setFirstStatus st.books book_id new_status with
    | some books => ({ books := books, stored := save_data books }, .updated)
    | none => (st, .notFound)
  else
    (st, .invalidStatus)

/-- The catalog invariant: all id values are pairwise distinct. -/
def distinctIds (books : List Book) : Prop :=
  (books.map Book.id).Nodup

instance (books : List Book) : Decidable (distinctIds books) := by
  unfold distinctIds
  infer_instance

/-- One call a caller can make on the catalog through the menu. -/
inductive Op where
  | add (title author : String) (year : Int)
  | del (id : Int)
  | setStat (id : Int) (s : String)
deriving DecidableEq

/-- Apply one operation to the library state, discarding the reported
outcome. -/
def applyOp (st : LibState) (op : Op) : LibState :=
  match op with
  | .add t a y => (add_book st t a y).1
  | .del i => (delete_book st i).1
  | .setStat i s => (change_status st i s).1

/-- Run a sequence of operations. -/
def runOps (st : LibState) (ops : List Op) : LibState :=
  ops.foldl applyOp st

/-- Run a sequence of `add_book` calls, collecting the assigned ids in call
order. -/
def runAdds (st : LibState) : List (String × String × Int) →
    LibState × List Int
  | [] => (st, [])
  | (t, a, y) :: rest =>
    let p := add_book st t a y
    let q := runAdds p.1 rest
    (q.1, p.2.id :: q.2)

/-! ## Demonstration fixtures -/

/-- The record of the spec's scenarios: `{id 1, "Dune", "Herbert", 1965}`. -/
def demoBook1 : Book :=
  { id := 1, title := "Dune", author := "Herbert", year := 1965,
    status := statusAvailable }

/-- A second record: `{id 2, "Foundation", "Asimov", 1951}`. -/
def demoBook2 : Book :=
  { id := 2, title := "Foundation", author := "Asimov", year := 1951,
    status := statusAvailable }

/-- A library holding exactly `demoBook1`, already persisted. -/
def demoLib : LibState :=
  { books := [demoBook1], stored := save_data [demoBook1] }

/-- A library holding `demoBook1` and `demoBook2`, already persisted. -/
def demoLib2 : LibState :=
  { books := [demoBook1, demoBook2], stored := save_data [demoBook1, demoBook2] }

/-- A freshly constructed library over an absent backing file. -/
def emptyLib : LibState := { books := [], stored := .absent }

/-! ## Helper lemmas about `pyMax` and `generate_id` -/

lemma le_foldl_max (as : List Int) (a : Int) : a ≤ as.foldl max a := by
  induction as generalizing a with
  | nil => exact le_refl a
  | cons b bs ih => exact le_trans (le_max_left a b) (ih (max a b))

lemma mem_le_foldl_max (as : List Int) (a x : Int) (hx : x ∈ as) :
    x ≤ as.foldl max a := by
  induction as generalizing a with
  | nil => cases hx
  | cons b bs ih =>
    rcases List.mem_cons.mp hx with h | h
    · subst h
      exact le_trans (le_max_right a x) (le_foldl_max bs (max a x))
    · exact ih (max a b) h

lemma mem_le_pyMax (l : List Int) (d x : Int) (hx : x ∈ l) : x ≤ pyMax l d := by
  cases l with
  | nil => cases hx
  | cons a as =>
    rcases List.mem_cons.mp hx with h | h
    · subst h
      exact le_foldl_max as x
    · exact mem_le_foldl_max as a x h

lemma foldl_max_mem (as : List Int) (a : Int) :
    as.foldl max a = a ∨ as.foldl max a ∈ as := by
  induction as generalizing a with
  | nil => exact Or.inl rfl
  | cons b bs ih =>
    rcases ih (max a b) with h | h
    · rcases max_choice a b with hm | hm
      · exact Or.inl (by rw [List.foldl_cons, h, hm])
      · exact Or.inr (by rw [List.foldl_cons, h, hm]; exact List.mem_cons_self b bs)
    · exact Or.inr (List.mem_cons_of_mem b h)

lemma pyMax_mem (l : List Int) (d : Int) (h : l ≠ []) : pyMax l d ∈ l := by
  cases l with
  | nil => exact absurd rfl h
  | cons a as =>
    rcases foldl_max_mem as a with h2 | h2
    · show as.foldl max a ∈ a :: as
      rw [h2]
      exact List.mem_cons_self a as
    · exact List.mem_cons_of_mem a h2

lemma pyMax_append_one (a : Int) (as : List Int) (x d : Int) :
    pyMax ((a :: as) ++ [x]) d = max (pyMax (a :: as) d) x := by
  show ((as ++ [x]).foldl max a) = max (as.foldl max a) x
  rw [List.foldl_append]
  rfl

lemma mem_id_lt_generate_id (books : List Book) (x : Int)
    (hx : x ∈ books.map Book.id) : x < generate_id books := by
  have h := mem_le_pyMax (books.map Book.id) 0 x hx
  simp only [generate_id]
  omega

lemma add_book_books (st : LibState) (t a : String) (y : Int) :
    (add_book st t a y).1.books = st.books ++ [(add_book st t a y).2] := rfl

lemma add_book_id (st : LibState) (t a : String) (y : Int) :
    (add_book st t a y).2.id = generate_id st.books := rfl

lemma generate_id_append (books : List Book) (b : Book)
    (hle : pyMax (books.map Book.id) 0 ≤ b.id) :
    generate_id (books ++ [b]) = b.id + 1 := by
  cases books with
  | nil => simp [generate_id, pyMax]
  | cons b0 bs =>
    simp only [generate_id, List.map_append, List.map_cons, List.map_nil]
    rw [pyMax_append_one]
    rw [max_eq_right (by simpa using hle)]

lemma generate_id_add (st : LibState) (t a : String) (y : Int) :
    generate_id ((add_book st t a y).1.books) = generate_id st.books + 1 := by
  have hle : pyMax (st.books.map Book.id) 0 ≤ (add_book st t a y).2.id := by
    rw [add_book_id]
    simp only [generate_id]
    omega
  rw [add_book_books, generate_id_append st.books _ hle, add_book_id]

/-! ## C4: generate_id is 1 + max, 1 on empty, and reuses id 1 after
deleting the only record -/

/-- C4: `generate_id` returns `1` on an empty collection; on any collection
it returns a value strictly above every current id and, when the collection
is non-empty, exactly one more than some current id (together: `1 + max`);
and after deleting the only record, which had id `1`, the next `add`
assigns id `1` again. -/
theorem C4_generate_id_spec :
    generate_id [] = 1 ∧
    (∀ books : List Book, ∀ b ∈ books, b.id < generate_id books) ∧
    (∀ books : List Book, books ≠ [] →
      ∃ b ∈ books, generate_id books = b.id + 1) ∧
    (∀ (f : StoredFile) (b : Book) (t a : String) (y : Int), b.id = 1 →
      (add_book (delete_book { books := [b], stored := f } 1).1 t a y).2.id
        = 1) := by
  refine ⟨rfl, ?_, ?_, ?_⟩
  · intro books b hb
    exact mem_id_lt_generate_id books b.id (List.mem_map_of_mem Book.id hb)
  · intro books hne
    have hmem : pyMax (books.map Book.id) 0 ∈ books.map Book.id :=
      pyMax_mem _ 0 (by simpa using hne)
    rcases List.mem_map.mp hmem with ⟨b, hb, hid⟩
    exact ⟨b, hb, by simp only [generate_id, hid]⟩
  · intro f b t a y hid
    have hdel : (delete_book { books := [b], stored := f } 1).1.books = [] := by
      simp [delete_book, hid]
    rw [add_book_id, hdel]
    rfl

/-- Witness for C4 at concrete inputs. -/
theorem C4_witness :
    demoBook1.id < generate_id [demoBook1] ∧
    (add_book (delete_book { books := [demoBook1], stored := .absent } 1).1
      "Dune" "Herbert" 1965).2.id = 1 :=
  ⟨C4_generate_id_spec.2.1 [demoBook1] demoBook1 (List.mem_singleton.mpr rfl),
   C4_generate_id_spec.2.2.2 .absent demoBook1 "Dune" "Herbert" 1965 rfl⟩

/-! ## C3: load on absent/empty/corrupt files -/

/-- C3 (corrected): `load_data` returns the empty list when the file is
absent or has zero length (with the missing-or-empty diagnostic), and
returns the empty list with the distinct corrupt diagnostic when the
non-empty contents fail to parse as JSON; a value that parses as JSON is
decoded, a successful decode being returned as is and a failed decode
propagating as a raised error rather than yielding the empty list. -/
theorem C3_load_corrected :
    load_data .absent = .returned [] .missingOrEmpty ∧
    load_data .emptyFile = .returned [] .missingOrEmpty ∧
    load_data .malformed = .returned [] .corrupt ∧
    (∀ (v : Json) (bs : List Book), decodeBooks v = .ok bs →
      load_data (.parsed v) = .returned bs .noDiag) ∧
    (∀ (v : Json) (e : PyError), decodeBooks v = .error e →
      load_data (.parsed v) = .raised e) := by
  refine ⟨rfl, rfl, rfl, ?_, ?_⟩
  · intro v bs h
    simp [load_data, h]
  · intro v e h
    simp [load_data, h]

/-- Witness for C3 at a concrete parsed value. -/
theorem C3_witness :
    load_data (.parsed (.jarr [])) = .returned [] .noDiag :=
  C3_load_corrected.2.2.2.1 (.jarr []) [] rfl

/-- Counterexample to C3 as stated: the file `[{}]` is present, non-empty,
and fails to parse as the expected structured format (its only entry has
none of the record fields), yet `load_data` raises an uncaught `TypeError`
instead of returning the empty sequence. -/
theorem C3_counterexample :
    load_data (.parsed (.jarr [.jobj []])) = .raised .typeError ∧
    ∀ d : Diag, load_data (.parsed (.jarr [.jobj []])) ≠ .returned [] d := by
  refine ⟨rfl, ?_⟩
  intro d h
  exact LoadResult.noConfusion h

/-! ## C5: save/load round trip -/

lemma decodeBook_to_dict (b : Book) : decodeBook b.to_dict = .ok b := rfl

lemma decodeList_map_to_dict (books : List Book) :
    decodeList (books.map Book.to_dict) = .ok books := by
  induction books with
  | nil => rfl
  | cons b bs ih => simp [List.map_cons, decodeList, decodeBook_to_dict, ih]

/-- C5: saving any non-empty, well-formed collection and loading it back
reproduces the same records, in the same order, with the same field values
(and no diagnostic). -/
theorem C5_round_trip (books : List Book) (hne : books ≠ []) :
    load_data (save_data books) = .returned books .noDiag := by
  simp [save_data, load_data, decodeBooks, decodeList_map_to_dict]

/-- Witness for C5 on a concrete one-record collection. -/
theorem C5_witness :
    load_data (save_data [demoBook1]) = .returned [demoBook1] .noDiag :=
  C5_round_trip [demoBook1] (List.cons_ne_nil demoBook1 [])

/-! ## C2: search by title/author works, search by year raises -/

/-- C2 (code bug): on the catalog holding the record
`{id 1, "Dune", "Herbert", 1965}`, searching `"dune"` in field `"title"`
returns that record and `"xyz"` returns nothing, as the claim says; but
searching `"1965"` in field `"year"` raises `AttributeError` (the `year`
attribute is an `int`, which has no `.lower()`), instead of matching the
textual form of the year. -/
theorem C2_year_search_raises :
    search_books demoLib "1965" "year" = .error .attributeError ∧
    search_books demoLib "dune" "title" = .ok [demoBook1] ∧
    search_books demoLib "xyz" "title" = .ok [] := by
  exact ⟨rfl, rfl, rfl⟩

/-! ## Helper lemmas about `setFirstStatus` and `change_status` -/

lemma setFirstStatus_none (l : List Book) (i : Int) (s : String)
    (h : ∀ b ∈ l, b.id ≠ i) : setFirstStatus l i s = none := by
  induction l with
  | nil => rfl
  | cons b bs ih =>
    have hb : ¬(b.id = i) := h b (List.mem_cons_self b bs)
    simp only [setFirstStatus]
    rw [if_neg (fun hc => hb (beq_iff_eq.mp hc))]
    rw [ih (fun x hx => h x (List.mem_cons_of_mem b hx))]
    rfl

lemma setFirstStatus_map_id (l : List Book) (i : Int) (s : String)
    (l2 : List Book) (h : setFirstStatus l i s = some l2) :
    l2.map Book.id = l.map Book.id := by
  induction l generalizing l2 with
  | nil => cases h
  | cons b bs ih =>
    simp only [setFirstStatus] at h
    by_cases hb : b.id = i
    · rw [if_pos (beq_iff_eq.mpr hb)] at h
      injection h with h2
      subst h2
      simp [List.map_cons]
    · rw [if_neg (fun hc => hb (beq_iff_eq.mp hc))] at h
      cases hr : setFirstStatus bs i s with
      | none => rw [hr] at h; cases h
      | some ys =>
        rw [hr] at h
        injection h with h2
        subst h2
        rw [List.map_cons, List.map_cons, ih ys hr]

lemma map_fix_id (l : List Book) (f : Book → Book) (h : ∀ x ∈ l, f x = x) :
    l.map f = l := by
  induction l with
  | nil => rfl
  | cons a as ih =>
    rw [List.map_cons, h a (List.mem_cons_self a as),
        ih (fun x hx => h x (List.mem_cons_of_mem a hx))]

lemma setFirstStatus_eq_map (l : List Book) (i : Int) (s : String)
    (hn : (l.map Book.id).Nodup) (b0 : Book) (hb0 : b0 ∈ l) (hid : b0.id = i) :
    setFirstStatus l i s =
      some (l.map (fun x => if x.id = i then { x with status := s } else x)) := by
  induction l with
  | nil => cases hb0
  | cons b bs ih =>
    rw [List.map_cons, List.nodup_cons] at hn
    by_cases hb : b.id = i
    · have hbs : ∀ x ∈ bs, ¬(x.id = i) := by
        intro x hx hxi
        exact hn.1 (by rw [hb, ← hxi]; exact List.mem_map_of_mem Book.id hx)
      simp only [setFirstStatus]
      rw [if_pos (beq_iff_eq.mpr hb)]
      rw [List.map_cons, if_pos hb]
      rw [map_fix_id bs _ (fun x hx => by rw [if_neg (hbs x hx)])]
    · have hb0bs : b0 ∈ bs := by
        rcases List.mem_cons.mp hb0 with h | h
        · exact absurd (h ▸ hid) hb
        · exact h
      simp only [setFirstStatus]
      rw [if_neg (fun hc => hb (beq_iff_eq.mp hc))]
      rw [ih hn.2 hb0bs]
      rw [List.map_cons, if_neg hb]
      rfl

lemma change_status_valid_some (st : LibState) (i : Int) (s : String)
    (hs : s = statusAvailable ∨ s = statusIssued) (l2 : List Book)
    (hset : setFirstStatus st.books i s = some l2) :
    change_status st i s =
      ({ books := l2, stored := save_data l2 }, .updated) := by
  unfold change_status
  rw [if_pos hs, hset]

/-! ## C8: change_status rejects, reports not-found, or updates atomically -/

/-- C8: `change_status` rejects a status outside the two legal values
without touching the state; with a legal status and no record carrying the
id it reports not-found without touching the state; and with a legal
status and a record carrying the id (ids pairwise distinct) it reports
updated, replaces exactly the matching record's status, and persists the
full new collection — so it either fully mutates and persists or does
neither. -/
theorem C8_change_status (st : LibState) (i : Int) (s : String) :
    (¬(s = statusAvailable ∨ s = statusIssued) →
      change_status st i s = (st, .invalidStatus)) ∧
    ((s = statusAvailable ∨ s = statusIssued) → (∀ b ∈ st.books, b.id ≠ i) →
      change_status st i s = (st, .notFound)) ∧
    ((s = statusAvailable ∨ s = statusIssued) → distinctIds st.books →
      ∀ b0 ∈ st.books, b0.id = i →
      (change_status st i s).2 = .updated ∧
      (change_status st i s).1.books =
        st.books.map
          (fun x => if x.id = i then { x with status := s } else x) ∧
      (change_status st i s).1.stored =
        save_data ((change_status st i s).1.books)) := by
  refine ⟨?_, ?_, ?_⟩
  · intro hs
    unfold change_status
    rw [if_neg hs]
  · intro hs hnone
    unfold change_status
    rw [if_pos hs, setFirstStatus_none st.books i s hnone]
  · intro hs hn b0 hb0 hid
    have hset := setFirstStatus_eq_map st.books i s hn b0 hb0 hid
    have hcs := change_status_valid_some st i s hs _ hset
    rw [hcs]
    exact ⟨rfl, rfl, rfl⟩

/-- Witness for C8: checking out the record with id 1 in the two-record
catalog. -/
theorem C8_witness :
    (change_status demoLib2 1 statusIssued).2 = .updated ∧
    (change_status demoLib2 1 statusIssued).1.books =
      demoLib2.books.map
        (fun x => if x.id = 1 then { x with status := statusIssued } else x) ∧
    (change_status demoLib2 1 statusIssued).1.stored =
      save_data ((change_status demoLib2 1 statusIssued).1.books) :=
  (C8_change_status demoLib2 1 statusIssued).2.2 (Or.inr rfl) (by decide)
    demoBook1 (by decide) rfl

/-! ## C10: the invalid-status check precedes the existence check -/

/-- C10: with a status outside the two legal values and an id carried by no
record, `change_status` reports invalid-status (not not-found) and leaves
the state — collection and backing file — unchanged. -/
theorem C10_invalid_precedence (st : LibState) (i : Int) (s : String)
    (hs1 : s ≠ statusAvailable) (hs2 : s ≠ statusIssued)
    (hid : ∀ b ∈ st.books, b.id ≠ i) :
    change_status st i s = (st, .invalidStatus) := by
  unfold change_status
  rw [if_neg (fun h => h.elim hs1 hs2)]

/-- Witness for C10: an unknown status on an absent id. -/
theorem C10_witness :
    change_status demoLib2 5 "утеряна" = (demoLib2, .invalidStatus) :=
  C10_invalid_precedence demoLib2 5 "утеряна" (by decide) (by decide)
    (by decide)

/-! ## C7: delete removes exactly the record with the id -/

lemma filterExc_mem (l : List Book) (p : Book → Except PyError Bool)
    (res : List Book) (h : filterExc l p = .ok res) : ∀ b ∈ res, b ∈ l := by
  induction l generalizing res with
  | nil =>
    cases h
    intro b hb
    cases hb
  | cons a as ih =>
    simp only [filterExc] at h
    cases hp : p a with
    | error e => rw [hp] at h; cases h
    | ok bv =>
      rw [hp] at h
      cases bv with
      | true =>
        cases hr : filterExc as p with
        | error e => rw [hr] at h; cases h
        | ok rest =>
          rw [hr] at h
          injection h with h2
          subst h2
          intro b hb
          rcases List.mem_cons.mp hb with h3 | h3
          · exact h3 ▸ List.mem_cons_self a as
          · exact List.mem_cons_of_mem a (ih rest hr b h3)
      | false =>
        intro b hb
        exact List.mem_cons_of_mem a (ih res h b hb)

/-- C7: when no record carries the id, `delete_book` reports not-found and
leaves the collection and the backing file untouched; when one does, it
reports removed, keeps exactly the records with a different id in their
prior order, persists the new collection, and afterwards neither the full
listing nor any successful search returns a record with that id. -/
theorem C7_delete_book (st : LibState) (i : Int) :
    ((∀ b ∈ st.books, b.id ≠ i) → delete_book st i = (st, .notFound)) ∧
    ((∃ b ∈ st.books, b.id = i) →
      (delete_book st i).2 = .removed ∧
      (delete_book st i).1.books = st.books.filter (fun b => b.id != i) ∧
      (delete_book st i).1.stored =
        save_data ((delete_book st i).1.books) ∧
      List.Sublist (delete_book st i).1.books st.books ∧
      (∀ b ∈ display_books (delete_book st i).1, b.id ≠ i) ∧
      (∀ (q f : String) (res : List Book),
        search_books (delete_book st i).1 q f = .ok res →
        ∀ b ∈ res, b.id ≠ i)) := by
  constructor
  · intro h
    have hc : ¬(st.books.any (fun b => b.id == i) = true) := by
      intro hc
      rcases List.any_eq_true.mp hc with ⟨b, hb, hbi⟩
      exact h b hb (beq_iff_eq.mp hbi)
    unfold delete_book
    rw [if_neg hc]
  · intro hex
    rcases hex with ⟨b0, hb0, hid⟩
    have hc : st.books.any (fun b => b.id == i) = true :=
      List.any_eq_true.mpr ⟨b0, hb0, beq_iff_eq.mpr hid⟩
    have hd : delete_book st i =
        ({ books := st.books.filter (fun b => b.id != i),
           stored := save_data (st.books.filter (fun b => b.id != i)) },
         .removed) := by
      unfold delete_book
      rw [if_pos hc]
    rw [hd]
    refine ⟨rfl, rfl, rfl, ?_, ?_, ?_⟩
    · exact List.filter_sublist st.books
    · intro b hb
      have hmem : b ∈ st.books.filter (fun b => b.id != i) := hb
      have := List.of_mem_filter hmem
      exact bne_iff_ne.mp this
    · intro q f res hres b hb
      have hmem := filterExc_mem _ _ res hres b hb
      have := List.of_mem_filter hmem
      exact bne_iff_ne.mp this

/-- Witness for C7: deleting id 1 from the two-record catalog. -/
theorem C7_witness :
    (delete_book demoLib2 1).2 = .removed ∧
    (delete_book demoLib2 1).1.books = [demoBook2] ∧
    (∀ b ∈ display_books (delete_book demoLib2 1).1, b.id ≠ 1) ∧
    delete_book (delete_book demoLib2 1).1 1 =
      ((delete_book demoLib2 1).1, .notFound) := by
  have h1 := (C7_delete_book demoLib2 1).2 ⟨demoBook1, by decide, rfl⟩
  refine ⟨h1.1, ?_, h1.2.2.2.2.1, ?_⟩
  · rw [h1.2.1]
    decide
  · refine (C7_delete_book (delete_book demoLib2 1).1 1).1 ?_
    intro b hb
    have hb2 : b ∈ demoLib2.books.filter (fun b => b.id != 1) := by
      rw [← h1.2.1]
      exact hb
    exact bne_iff_ne.mp (List.mem_filter.mp hb2).2

/-! ## C6: add constructs, appends, persists, and reports the new record -/

/-- C6: for every state and inputs, `add_book` yields a record whose id is
the freshly generated one, whose fields are the inputs, and whose status is
the default; it appends that record at the end and persists the full new
collection, the record being the reported result; and from a library over
an empty backing store, `add("Dune","Herbert",1965)` yields id 1 with the
default (available) status, and reloading the store returns exactly that
record. -/
theorem C6_add_book (st : LibState) (t a : String) (y : Int) :
    (add_book st t a y).2.id = generate_id st.books ∧
    (add_book st t a y).2.title = t ∧
    (add_book st t a y).2.author = a ∧
    (add_book st t a y).2.year = y ∧
    (add_book st t a y).2.status = statusAvailable ∧
    (add_book st t a y).1.books = st.books ++ [(add_book st t a y).2] ∧
    (add_book st t a y).1.stored = save_data ((add_book st t a y).1.books) ∧
    initLibrary .absent = .ok emptyLib ∧
    (add_book emptyLib "Dune" "Herbert" 1965).2.id = 1 ∧
    (add_book emptyLib "Dune" "Herbert" 1965).2.status = statusAvailable ∧
    load_data (add_book emptyLib "Dune" "Herbert" 1965).1.stored =
      .returned [(add_book emptyLib "Dune" "Herbert" 1965).2] .noDiag :=
  ⟨rfl, rfl, rfl, rfl, rfl, rfl, rfl, rfl, rfl, rfl, rfl⟩

/-! ## C9: distinct ids are preserved by every operation sequence -/

lemma add_book_distinct (st : LibState) (t a : String) (y : Int)
    (h : distinctIds st.books) : distinctIds ((add_book st t a y).1.books) := by
  unfold distinctIds
  rw [add_book_books, List.map_append]
  refine List.Nodup.append h (List.nodup_singleton _) ?_
  intro x hx hx2
  rw [List.map_cons, List.map_nil, List.mem_singleton] at hx2
  have hlt := mem_id_lt_generate_id st.books x hx
  rw [hx2, add_book_id] at hlt
  exact lt_irrefl _ hlt

lemma delete_book_distinct (st : LibState) (i : Int)
    (h : distinctIds st.books) : distinctIds ((delete_book st i).1.books) := by
  by_cases hc : st.books.any (fun b => b.id == i) = true
  · unfold delete_book
    rw [if_pos hc]
    exact h.sublist ((List.filter_sublist st.books).map Book.id)
  · unfold delete_book
    rw [if_neg hc]
    exact h

lemma change_status_distinct (st : LibState) (i : Int) (s : String)
    (h : distinctIds st.books) :
    distinctIds ((change_status st i s).1.books) := by
  unfold change_status
  by_cases hs : s = statusAvailable ∨ s = statusIssued
  · rw [if_pos hs]
    cases hset : setFirstStatus st.books i s with
    | none => exact h
    | some l2 =>
      have hmap : l2.map Book.id = st.books.map Book.id :=
        setFirstStatus_map_id st.books i s l2 hset
      show (l2.map Book.id).Nodup
      rw [hmap]
      exact h
  · rw [if_neg hs]
    exact h

lemma applyOp_distinct (st : LibState) (op : Op) (h : distinctIds st.books) :
    distinctIds ((applyOp st op).books) := by
  cases op with
  | add t a y => exact add_book_distinct st t a y h
  | del i => exact delete_book_distinct st i h
  | setStat i s => exact change_status_distinct st i s h

/-- C9: starting from any state whose ids are pairwise distinct (the empty
collection included), every sequence of add, delete, and status-change
operations leads only to states whose ids are pairwise distinct. -/
theorem C9_distinct_ids_invariant (st : LibState) (ops : List Op)
    (h : distinctIds st.books) : distinctIds ((runOps st ops).books) := by
  induction ops generalizing st with
  | nil => exact h
  | cons op rest ih => exact ih (applyOp st op) (applyOp_distinct st op h)

/-- Witness for C9 on a concrete state and operation sequence. -/
theorem C9_witness :
    distinctIds ((runOps demoLib2 [.add "Hyperion" "Simmons" 1989, .del 1,
      .setStat 2 statusIssued]).books) :=
  C9_distinct_ids_invariant demoLib2
    [.add "Hyperion" "Simmons" 1989, .del 1, .setStat 2 statusIssued]
    (by decide)

/-! ## C1: ids under interleaved adds and deletes -/

/-- First step of the C1 scenario: add a first record to an empty library. -/
def c1Step1 : LibState × Book := add_book emptyLib "Dune" "Herbert" 1965

/-- Second step: add a second record (it receives id 2). -/
def c1Step2 : LibState × Book := add_book c1Step1.1 "Foundation" "Asimov" 1951

/-- Third step: delete the record with id 2. -/
def c1Step3 : LibState × DeleteOutcome := delete_book c1Step2.1 2

/-- Fourth step: add a third record. -/
def c1Step4 : LibState × Book := add_book c1Step3.1 "Hyperion" "Simmons" 1989

/-- Counterexample to C1 as stated: in the sequence add, add, delete(2),
add, the second add assigns id 2, that record is removed, and the next add
assigns id 2 again — the id of a deleted record is reused, and the ids
assigned across the sequence (1, 2, 2) are not strictly increasing. -/
theorem C1_counterexample :
    c1Step1.2.id = 1 ∧ c1Step2.2.id = 2 ∧ c1Step3.2 = .removed ∧
    c1Step4.2.id = 2 ∧ c1Step4.2.id = c1Step2.2.id :=
  ⟨rfl, rfl, rfl, rfl, rfl⟩

lemma runAdds_cons (st : LibState) (t a : String) (y : Int)
    (rest : List (String × String × Int)) :
    (runAdds st ((t, a, y) :: rest)).2 =
      generate_id st.books :: (runAdds (add_book st t a y).1 rest).2 := rfl

lemma runAdds_ids_ge (inputs : List (String × String × Int)) (st : LibState) :
    ∀ x ∈ (runAdds st inputs).2, generate_id st.books ≤ x := by
  induction inputs generalizing st with
  | nil => intro x hx; cases hx
  | cons hd rest ih =>
    obtain ⟨t, a, y⟩ := hd
    intro x hx
    rw [runAdds_cons] at hx
    rcases List.mem_cons.mp hx with h | h
    · exact le_of_eq h.symm
    · have h2 := ih (add_book st t a y).1 x h
      rw [generate_id_add] at h2
      omega

/-- C1 (amended): across any uninterrupted sequence of `add_book` calls,
from any starting state, the assigned ids are strictly increasing and
therefore pairwise distinct; with interleaved deletions this fails, because
the id of a deleted record can be assigned again (see the
add/add/delete/add sequence). -/
theorem C1_adds_strictly_increasing (st : LibState)
    (inputs : List (String × String × Int)) :
    List.Pairwise (fun x y => x < y) (runAdds st inputs).2 ∧
    (runAdds st inputs).2.Nodup := by
  have hp : ∀ (ins : List (String × String × Int)) (s0 : LibState),
      List.Pairwise (fun x y => x < y) (runAdds s0 ins).2 := by
    intro ins
    induction ins with
    | nil => intro s0; exact List.Pairwise.nil
    | cons hd rest ih =>
      intro s0
      obtain ⟨t, a, y⟩ := hd
      rw [runAdds_cons]
      refine List.pairwise_cons.mpr ⟨?_, ih (add_book s0 t a y).1⟩
      intro x hx
      have h2 := runAdds_ids_ge rest (add_book s0 t a y).1 x hx
      rw [generate_id_add] at h2
      omega
  exact ⟨hp inputs st, (hp inputs st).imp (fun h => ne_of_lt h)⟩
